import Mathlib

/-!
# Verification of the X Manga PR Bot dashboard core

Shallow embedding of the thread-composition engine (`chunkArray` and
`buildThreadForEntry` in `src/dashboard/src/App.tsx`), the image-resolution
state machine (`ImageItem` in `src/dashboard/src/ImageItem.tsx`) and the
posting function (`postToX` in `src/dashboard/src/App.tsx`), together with
proofs of the specified properties.
-/

/-- Metadata of a day-entry (`entry.meta` in the API response shape):
optional title and scheduled timestamp.  `buildThreadForEntry` never reads
these fields. -/
structure EntryMeta where
  title : Option String
  scheduledAt : Option String
deriving DecidableEq, Repr

/-- A day-entry as normalised by `fetchEntry` in `App.tsx`: an ordered list
of image references and a trailing caption (both defaulted to `[]` / `""`
when absent), plus optional metadata. -/
structure DayEntry where
  images : List String
  trailingText : String
  meta : Option EntryMeta
deriving DecidableEq, Repr

/-- One post unit of the composed thread, as produced by
`buildThreadForEntry` in `App.tsx`: up to four image references, a text,
and 1-based position metadata. -/
structure PostUnit where
  images : List String
  text : String
  index : Nat
  total : Nat
deriving DecidableEq, Repr

/-- `chunkArray` from `src/dashboard/src/App.tsx` (lines 35–39): the loop
`for (let i = 0; i < arr.length; i += size) out.push(arr.slice(i, i + size))`
produces the consecutive chunks `arr.slice(0, size)`,
`arr.slice(size, 2 * size)`, …  With `size = 0` and a non-empty `arr` the
source loop never terminates; the repository only ever calls `chunkArray`
with `size = 4`, and we let the unreachable `size = 0` case return `[]`. -/
def chunkArray {α : Type} (arr : List α) (size : Nat) : List (List α) :=
  match arr, size with
  | [], _ => []
  | _ :: _, 0 => []
  | a :: as, size + 1 =>
    (a :: as).take (size + 1) :: chunkArray ((a :: as).drop (size + 1)) (size + 1)
termination_by arr.length
decreasing_by
  simp only [List.length_drop, List.length_cons]
  omega

/-- `buildThreadForEntry` from `src/dashboard/src/App.tsx` (lines 146–161).
A `null` entry (`!entryData`) yields `[]`; otherwise the images are chunked
into groups of 4, each chunk becomes a post unit with empty text (the
commented-out line 154 would have put the trailing text on the last image
chunk, the live line 155 sets `text: ""`) and index `idx + 1`, and one
trailing text-only unit is pushed at the end. -/
def buildThreadForEntry : Option DayEntry → List PostUnit
  | none => []
  | some entryData =>
    let chunks := chunkArray entryData.images 4
    let posts := chunks.mapIdx (fun idx imgs =>
      { images := imgs, text := "", index := idx + 1, total := chunks.length + 1 })
    posts ++ [{ images := [], text := entryData.trailingText,
                index := chunks.length + 1, total := chunks.length + 1 }]

/-- The two state hooks of `ImageItem` in `src/dashboard/src/ImageItem.tsx`
(`image` from `useState<string>("")`, `loading` from `useState(true)`).
`loading = true` is the pending state (renders the loading paragraph),
`loading = false` with `image` set is the ready state. -/
structure ImageItemState where
  image : String
  loading : Bool
deriving DecidableEq, Repr

/-- The initial state of an `ImageItem`: empty data URI, pending. -/
def imageItemInit : ImageItemState := { image := "", loading := true }

/-- Outcome of the proxy fetch inside `loadImages`: either the parsed JSON
body `\x7b mimeType, base64 \x7d` of a successful fetch, or the error thrown
by `fetch`/`res.json()`. -/
inductive FetchOutcome where
  | success (mimeType b64 : String)
  | failure (err : String)
deriving DecidableEq, Repr

/-- The template literal on line 16 of `ImageItem.tsx`:
`` `data:$\x7bjson.mimeType\x7d;base64,$\x7bjson.base64\x7d` ``. -/
def dataURI (mimeType b64 : String) : String :=
  "data:" ++ mimeType ++ ";base64," ++ b64

/-- One run of the `loadImages` closure in `ImageItem.tsx` (lines 12–25)
applied when the fetch settles.  `isMounted` is the value of the liveness
flag at that moment (it starts `true` and the effect cleanup on unmount
sets it to `false`).  On success the result is applied only behind the
`if (isMounted)` guard; a thrown error is caught by the `try`/`catch` and
only logged via `console.error`, so the function is total — it returns the
new state together with the console-error lines, and never propagates an
exception. -/
def loadImages (isMounted : Bool) (st : ImageItemState) :
    FetchOutcome → ImageItemState × List String
  | FetchOutcome.success mimeType b64 =>
    (if isMounted then { image := dataURI mimeType b64, loading := false } else st, [])
  | FetchOutcome.failure err => (st, ["Error loading images: " ++ err])

/-- The `params` object built by `postToX` in `App.tsx` (lines 284–292),
together with the request URL. -/
structure URLFetchRequest where
  url : String
  method : String
  authorization : String
  contentType : String
  payload : String
  muteHttpExceptions : Bool
deriving DecidableEq, Repr

/-- The parts of a `UrlFetchApp` HTTP response that `postToX` reads:
`getResponseCode()` and `getContentText()`. -/
structure HTTPResponse where
  responseCode : Nat
  contentText : String
deriving DecidableEq, Repr

/-- JavaScript falsiness of the `bearerToken` script property as tested by
`if (!bearerToken)` on line 275 of `App.tsx`: the property is `null`
(absent) or the empty string. -/
def credentialMissing : Option String → Bool
  | none => true
  | some tok => tok == ""

/-- The single request `postToX` sends: `POST https://api.twitter.com/2/tweets`
with bearer authorization and the constant JSON payload
`JSON.stringify(\x7b text: 'Test' \x7d)`. -/
def postRequest (bearerToken : String) : URLFetchRequest :=
  { url := "https://api.twitter.com/2/tweets"
    method := "post"
    authorization := "Bearer " ++ bearerToken
    contentType := "application/json"
    payload := "\x7b\"text\":\"Test\"\x7d"
    muteHttpExceptions := true }

/-- `postToX` from `src/dashboard/src/App.tsx` (lines 270–305).  The script
property store, `UrlFetchApp.fetch` and the `JSON.parse` builtin are
parameters; the result is the list of requests actually issued together
with the outcome (`Except.error` models an exception leaving `postToX`).
If the token is falsy the `throw new Error(...)` happens before any
request is issued (empty request list).  On a 200 response the body is fed
to `JSON.parse` and the parsed value returned; nothing in `postToX`
catches the SyntaxError that `JSON.parse` throws on a non-JSON body
(`jsonParse`'s `Except.error`), so it propagates out unchanged.  On a
non-200 response the thrown error message carries the raw response body.
The `entry` argument is accepted but, as in the source, never read; the
guard guarantees the token is a non-empty string, which the embedding
recovers with `Option.getD`. -/
def postToX (entry : DayEntry) (bearerToken : Option String)
    (urlFetch : URLFetchRequest → HTTPResponse)
    (jsonParse : String → Except String String) :
    List URLFetchRequest × Except String String :=
  if credentialMissing bearerToken then
    ([], Except.error "bearerToken is not set in script properties.")
  else
    let tok := bearerToken.getD ""
    let response := urlFetch (postRequest tok)
    if response.responseCode = 200 then
      ([postRequest tok], jsonParse response.contentText)
    else
      ([postRequest tok], Except.error ("Failed to post entry to X: " ++ response.contentText))

/-! ## Helper lemmas about `chunkArray` and `buildThreadForEntry` -/

/-- Concatenating the chunks produced by `chunkArray` with size 4 restores
the input list. -/
theorem chunkArray_flatten {α : Type} (arr : List α) :
    (chunkArray arr 4).flatten = arr := by
  match arr with
  | [] => rw [chunkArray]; rfl
  | a :: as =>
    rw [chunkArray]
    simp only [show (3 + 1 : Nat) = 4 from rfl]
    rw [List.flatten_cons, chunkArray_flatten ((a :: as).drop 4)]
    exact List.take_append_drop _ _
termination_by arr.length
decreasing_by simp only [List.length_drop, List.length_cons]; omega

/-- `chunkArray` with size 4 produces `ceil(length / 4)` chunks. -/
theorem chunkArray_length_four {α : Type} (arr : List α) :
    (chunkArray arr 4).length = (arr.length + 3) / 4 := by
  match arr with
  | [] => rw [chunkArray]; simp
  | a :: as =>
    rw [chunkArray]
    simp only [show (3 + 1 : Nat) = 4 from rfl]
    have ih := chunkArray_length_four ((a :: as).drop 4)
    simp only [List.length_cons, List.length_drop] at ih ⊢
    omega
termination_by arr.length
decreasing_by simp only [List.length_drop, List.length_cons]; omega

/-- Every chunk produced by `chunkArray` with size 4 has between 1 and 4
elements. -/
theorem chunkArray_mem_four {α : Type} (arr : List α) :
    ∀ c ∈ chunkArray arr 4, c.length ≤ 4 ∧ c ≠ [] := by
  match arr with
  | [] => rw [chunkArray]; intro c hc; cases hc
  | a :: as =>
    rw [chunkArray]
    simp only [show (3 + 1 : Nat) = 4 from rfl]
    intro c hc
    rcases List.mem_cons.mp hc with h | h
    · subst h
      refine ⟨by simp [List.length_take], ?_⟩
      have hpos : 0 < ((a :: as).take 4).length := by
        simp [List.length_take]
      exact List.ne_nil_of_length_pos hpos
    · exact chunkArray_mem_four ((a :: as).drop 4) c h
termination_by arr.length
decreasing_by simp only [List.length_drop, List.length_cons]; omega

/-- Unfolding of `buildThreadForEntry` on a present entry. -/
theorem buildThreadForEntry_some (e : DayEntry) :
    buildThreadForEntry (some e) =
      (chunkArray e.images 4).mapIdx (fun idx imgs =>
        { images := imgs, text := "", index := idx + 1,
          total := (chunkArray e.images 4).length + 1 }) ++
      [{ images := [], text := e.trailingText,
         index := (chunkArray e.images 4).length + 1,
         total := (chunkArray e.images 4).length + 1 }] := rfl

/-- The images fields of the composed thread are the chunks followed by the
empty image list of the trailing unit. -/
theorem buildThread_map_images (e : DayEntry) :
    (buildThreadForEntry (some e)).map PostUnit.images =
      chunkArray e.images 4 ++ [[]] := by
  rw [buildThreadForEntry_some, List.map_append]
  congr 1
  apply List.ext_getElem
  · simp
  · intro n h1 h2
    simp [List.getElem_mapIdx]

/-- The composed thread has one unit per chunk plus the trailing unit. -/
theorem buildThread_length (e : DayEntry) :
    (buildThreadForEntry (some e)).length = (chunkArray e.images 4).length + 1 := by
  rw [buildThreadForEntry_some]
  simp

/-- Every unit of the composed thread is either the unit built from the
`i`-th chunk or the trailing text unit. -/
theorem buildThread_mem (e : DayEntry) (p : PostUnit)
    (hp : p ∈ buildThreadForEntry (some e)) :
    (∃ i : Nat, ∃ h : i < (chunkArray e.images 4).length,
        p = { images := (chunkArray e.images 4)[i], text := "", index := i + 1,
              total := (chunkArray e.images 4).length + 1 }) ∨
    p = { images := [], text := e.trailingText,
          index := (chunkArray e.images 4).length + 1,
          total := (chunkArray e.images 4).length + 1 } := by
  rw [buildThreadForEntry_some] at hp
  rcases List.mem_append.mp hp with h | h
  · left
    obtain ⟨i, hi, hpi⟩ := List.mem_iff_getElem.mp h
    have hi' : i < (chunkArray e.images 4).length := by simpa using hi
    refine ⟨i, hi', ?_⟩
    rw [← hpi]
    exact List.getElem_mapIdx
  · right
    simpa using h

/-! ## The specified properties -/

/-- C1: for every non-null day-entry, `buildThreadForEntry` partitions
`entry.images` into consecutive chunks of at most 4 images each, preserving
the original order, with chunk count `ceil(len(images) / 4)` (0 when
`images` is empty); the image-bearing units of the output, concatenated in
order, reconstruct `entry.images` exactly, with no image lost, duplicated
or reordered. -/
theorem compose_partitions_images (e : DayEntry) :
    (chunkArray e.images 4).length = (e.images.length + 3) / 4 ∧
    (∀ p ∈ buildThreadForEntry (some e), p.images.length ≤ 4) ∧
    ((buildThreadForEntry (some e)).map PostUnit.images).flatten = e.images := by
  refine ⟨chunkArray_length_four e.images, ?_, ?_⟩
  · intro p hp
    rcases buildThread_mem e p hp with ⟨i, h, rfl⟩ | rfl
    · exact (chunkArray_mem_four e.images _ (List.getElem_mem h)).1
    · simp
  · rw [buildThread_map_images, List.flatten_append, chunkArray_flatten]
    simp

/-- Witness for `compose_partitions_images` on the 5-image boundary entry
from the specification. -/
theorem compose_partitions_images_witness :
    (⟨["a", "b", "c", "d"], "", 1, 3⟩ : PostUnit).images.length ≤ 4 ∧
    ((buildThreadForEntry (some ⟨["a", "b", "c", "d", "e"], "T", none⟩)).map
        PostUnit.images).flatten = ["a", "b", "c", "d", "e"] := by
  have h := compose_partitions_images ⟨["a", "b", "c", "d", "e"], "T", none⟩
  refine ⟨h.2.1 ⟨["a", "b", "c", "d"], "", 1, 3⟩ ?_, h.2.2⟩
  simp [buildThreadForEntry_some, chunkArray.eq_def]

/-- C2: for every non-null day-entry, the composed thread ends with exactly
one text-only unit whose images field is empty and whose text is the
trailing text, at index `C + 1` (appended even for an empty trailing
text, since `e.trailingText` is unconstrained here); every image-bearing
unit has empty text. -/
theorem compose_trailing_text_unit (e : DayEntry) :
    (buildThreadForEntry (some e)).getLast? =
      some { images := [], text := e.trailingText,
             index := (chunkArray e.images 4).length + 1,
             total := (chunkArray e.images 4).length + 1 } ∧
    (buildThreadForEntry (some e)).countP (fun p => p.images.isEmpty) = 1 ∧
    ∀ p ∈ buildThreadForEntry (some e), p.images ≠ [] → p.text = "" := by
  refine ⟨?_, ?_, ?_⟩
  · rw [buildThreadForEntry_some, List.getLast?_append]
    simp
  · rw [buildThreadForEntry_some, List.countP_append]
    have h0 : ((chunkArray e.images 4).mapIdx (fun idx imgs =>
        ({ images := imgs, text := "", index := idx + 1,
           total := (chunkArray e.images 4).length + 1 } : PostUnit))).countP
        (fun p => p.images.isEmpty) = 0 := by
      rw [List.countP_eq_zero]
      intro p hp
      obtain ⟨i, hi, hpi⟩ := List.mem_iff_getElem.mp hp
      rw [List.getElem_mapIdx] at hpi
      have hi' : i < (chunkArray e.images 4).length := by simpa using hi
      have hne : (chunkArray e.images 4)[i] ≠ [] :=
        (chunkArray_mem_four e.images _ (List.getElem_mem hi')).2
      rw [← hpi]
      simpa [List.isEmpty_iff] using hne
    rw [h0]
    simp [List.countP_cons]
  · intro p hp
    rcases buildThread_mem e p hp with ⟨i, h, rfl⟩ | rfl
    · intro _; rfl
    · intro hne; exact absurd rfl hne

/-- Witness for `compose_trailing_text_unit` on a one-image entry: the
image-bearing unit has empty text. -/
theorem compose_trailing_text_unit_witness :
    (⟨["a"], "", 1, 2⟩ : PostUnit).text = "" := by
  have h := compose_trailing_text_unit ⟨["a"], "T", none⟩
  refine h.2.2 ⟨["a"], "", 1, 2⟩ ?_ ?_
  · simp [buildThreadForEntry_some, chunkArray.eq_def]
  · simp

/-- C3: for every non-null day-entry, every unit's `total` equals the
length of the composed sequence, and the `index` fields in sequence order
are exactly `1, 2, …, total`, contiguous with no gaps or repeats. -/
theorem compose_position_metadata (e : DayEntry) :
    (∀ p ∈ buildThreadForEntry (some e),
        p.total = (buildThreadForEntry (some e)).length) ∧
    (buildThreadForEntry (some e)).map PostUnit.index =
      List.range' 1 (buildThreadForEntry (some e)).length := by
  constructor
  · intro p hp
    rw [buildThread_length]
    rcases buildThread_mem e p hp with ⟨i, h, rfl⟩ | rfl <;> rfl
  · rw [buildThread_length, buildThreadForEntry_some, List.map_append,
      List.range'_1_concat]
    congr 1
    · apply List.ext_getElem
      · simp
      · intro n h1 h2
        rw [List.getElem_map, List.getElem_mapIdx, List.getElem_range']
        show n + 1 = 1 + 1 * n
        omega
    · simp [Nat.add_comm]

/-- Witness for `compose_position_metadata` on a one-image entry: both
units carry `total = 2`. -/
theorem compose_position_metadata_witness :
    (⟨[], "T", 2, 2⟩ : PostUnit).total =
      (buildThreadForEntry (some ⟨["a"], "T", none⟩)).length := by
  have h := compose_position_metadata ⟨["a"], "T", none⟩
  refine h.1 ⟨[], "T", 2, 2⟩ ?_
  simp [buildThreadForEntry_some, chunkArray.eq_def]

/-- C4: composing a null entry yields the empty sequence, and an entry with
no images and empty trailing text yields exactly the single unit
`\x7b images: [], text: "", index: 1, total: 1 \x7d` (for any metadata). -/
theorem compose_null_and_empty_entry :
    buildThreadForEntry none = [] ∧
    ∀ m : Option EntryMeta,
      buildThreadForEntry (some { images := [], trailingText := "", meta := m }) =
        [{ images := [], text := "", index := 1, total := 1 }] := by
  refine ⟨rfl, fun m => ?_⟩
  simp [buildThreadForEntry_some, chunkArray.eq_def]

/-- C5: `buildThreadForEntry` is pure and deterministic.  In this embedding
it is a function of its argument, so two calls on structurally identical
inputs are definitionally equal and the input value is never mutated (the
source only reads `entryData.images` and `entryData.trailingText`;
`slice` copies and `map`/`push` build fresh objects).  Beyond that, the
output depends on nothing but the two fields the source reads: entries
that agree on `images` and `trailingText` — even with different `meta` —
compose to structurally identical sequences. -/
theorem compose_pure_deterministic (e₁ e₂ : DayEntry)
    (h1 : e₁.images = e₂.images) (h2 : e₁.trailingText = e₂.trailingText) :
    buildThreadForEntry (some e₁) = buildThreadForEntry (some e₂) := by
  rw [buildThreadForEntry_some, buildThreadForEntry_some, h1, h2]

/-- Witness for `compose_pure_deterministic`: two entries sharing images
and trailing text but differing in metadata compose identically. -/
theorem compose_pure_deterministic_witness :
    buildThreadForEntry (some ⟨["a"], "T", none⟩) =
      buildThreadForEntry (some ⟨["a"], "T", some ⟨some "t", none⟩⟩) :=
  compose_pure_deterministic ⟨["a"], "T", none⟩ ⟨["a"], "T", some ⟨some "t", none⟩⟩ rfl rfl

/-- C6: when the proxy fetch succeeds with body `\x7b mimeType, base64 \x7d`
and the consumer is still mounted, `loadImages` stores exactly the string
`"data:" ++ mimeType ++ ";base64," ++ base64` and moves the visible state
from pending (`loading = true` initially) to ready (`loading = false`). -/
theorem imageItem_success_sets_dataURI (st : ImageItemState) (mimeType b64 : String) :
    (loadImages true st (FetchOutcome.success mimeType b64)).1 =
      { image := "data:" ++ mimeType ++ ";base64," ++ b64, loading := false } ∧
    imageItemInit.loading = true ∧
    (loadImages true imageItemInit (FetchOutcome.success mimeType b64)).1.loading = false :=
  ⟨rfl, rfl, rfl⟩

/-- C7: if the consumer is torn down before the response arrives — the
liveness flag read by the `if (isMounted)` guard is `false` when the result
is applied — `loadImages` leaves the consumer's state exactly as it was,
for any outcome: the late result is discarded. -/
theorem imageItem_unmounted_discards_result (st : ImageItemState) (r : FetchOutcome) :
    (loadImages false st r).1 = st := by
  cases r <;> rfl

/-- C8: a fetch/decode error is swallowed by the `try`/`catch`:
`loadImages` is total (never propagates the error to a caller), leaves the
state untouched apart from emitting the log line, and from the initial
state the slot therefore stays pending (`loading = true`) with no error
indicator and no retry. -/
theorem imageItem_fetch_error_logged_only (mounted : Bool) (st : ImageItemState)
    (err : String) :
    loadImages mounted st (FetchOutcome.failure err) =
      (st, ["Error loading images: " ++ err]) ∧
    (loadImages mounted imageItemInit (FetchOutcome.failure err)).1.loading = true :=
  ⟨rfl, rfl⟩

/-- C9 counterexample: on a 200 response whose body is not valid JSON, the
SyntaxError thrown by `JSON.parse` on line 299 propagates uncaught out of
`postToX`, so the operation does raise on a 200 response. -/
theorem postToX_raises_on_200_nonjson :
    postToX ⟨[], "", none⟩ (some "abc") (fun _ => ⟨200, "not json"⟩)
        (fun _ => Except.error "SyntaxError: Unexpected token 'o'") =
      ([postRequest "abc"], Except.error "SyntaxError: Unexpected token 'o'") := rfl

/-- C9 (amended): `postToX` raises the missing-credential error before
issuing any request (empty request list) when the bearer token is falsy;
with a present token it issues the single request and, on a non-200
response, raises an error carrying the raw response body; on a 200
response it returns the parsed body without raising provided `JSON.parse`
of the body succeeds, while a 200 body that `JSON.parse` rejects makes the
SyntaxError propagate uncaught. -/
theorem postToX_error_handling (e : DayEntry) (t : Option String) (tok : String)
    (urlFetch : URLFetchRequest → HTTPResponse)
    (jsonParse : String → Except String String)
    (hmiss : credentialMissing t = true)
    (hpres : credentialMissing (some tok) = false) :
    postToX e t urlFetch jsonParse =
      ([], Except.error "bearerToken is not set in script properties.") ∧
    ((urlFetch (postRequest tok)).responseCode ≠ 200 →
      postToX e (some tok) urlFetch jsonParse =
        ([postRequest tok],
         Except.error ("Failed to post entry to X: " ++
           (urlFetch (postRequest tok)).contentText))) ∧
    (∀ parsed, (urlFetch (postRequest tok)).responseCode = 200 →
      jsonParse (urlFetch (postRequest tok)).contentText = Except.ok parsed →
      postToX e (some tok) urlFetch jsonParse = ([postRequest tok], Except.ok parsed)) ∧
    (∀ err, (urlFetch (postRequest tok)).responseCode = 200 →
      jsonParse (urlFetch (postRequest tok)).contentText = Except.error err →
      postToX e (some tok) urlFetch jsonParse = ([postRequest tok], Except.error err)) := by
  refine ⟨by simp [postToX, hmiss], ?_, ?_, ?_⟩
  · intro hne
    simp [postToX, hpres, hne]
  · intro parsed h200 hok
    simp [postToX, hpres, h200, hok]
  · intro err h200 herr
    simp [postToX, hpres, h200, herr]

/-- Witness for `postToX_error_handling` with an absent credential, the
token `"abc"`, a stub transport answering 200 with the body `\x7b\x7d`,
and a parse that accepts it. -/
theorem postToX_error_handling_witness :
    postToX ⟨[], "", none⟩ none (fun _ => ⟨200, "\x7b\x7d"⟩) Except.ok =
      ([], Except.error "bearerToken is not set in script properties.") ∧
    postToX ⟨[], "", none⟩ (some "abc") (fun _ => ⟨200, "\x7b\x7d"⟩) Except.ok =
      ([postRequest "abc"], Except.ok "\x7b\x7d") := by
  have h := postToX_error_handling ⟨[], "", none⟩ none "abc"
    (fun _ => ⟨200, "\x7b\x7d"⟩) Except.ok rfl rfl
  exact ⟨h.1, h.2.2.1 "\x7b\x7d" rfl rfl⟩

/-- C10: the request `postToX` sends is independent of its entry argument —
any two entries produce the same transcript — and every issued request
carries the constant payload `JSON.stringify(\x7b text: 'Test' \x7d)`:
neither `entry.images` nor `entry.trailingText` influences the request. -/
theorem postToX_entry_independent (e₁ e₂ : DayEntry) (bearerToken : Option String)
    (urlFetch : URLFetchRequest → HTTPResponse)
    (jsonParse : String → Except String String) :
    postToX e₁ bearerToken urlFetch jsonParse = postToX e₂ bearerToken urlFetch jsonParse ∧
    ∀ req ∈ (postToX e₁ bearerToken urlFetch jsonParse).1,
      req.payload = "\x7b\"text\":\"Test\"\x7d" := by
  refine ⟨rfl, fun req hreq => ?_⟩
  by_cases hc : credentialMissing bearerToken
  · simp [postToX, hc] at hreq
  · rw [postToX] at hreq
    simp only [hc, Bool.false_eq_true, if_false] at hreq
    rcases Nat.decEq (urlFetch (postRequest (bearerToken.getD ""))).responseCode 200 with h | h
    · simp only [if_neg h] at hreq
      rw [List.mem_singleton.mp hreq]
      rfl
    · simp only [if_pos h] at hreq
      rw [List.mem_singleton.mp hreq]
      rfl

/-- Witness for `postToX_entry_independent`: two different entries, a
present token, a stub transport and parse; the issued request carries the
constant payload. -/
theorem postToX_entry_independent_witness :
    (postToX ⟨["a"], "T", none⟩ (some "abc") (fun _ => ⟨200, "ok"⟩) Except.ok =
      postToX ⟨[], "", none⟩ (some "abc") (fun _ => ⟨200, "ok"⟩) Except.ok) ∧
    (postRequest "abc").payload = "\x7b\"text\":\"Test\"\x7d" := by
  have h := postToX_entry_independent ⟨["a"], "T", none⟩ ⟨[], "", none⟩ (some "abc")
    (fun _ => ⟨200, "ok"⟩) Except.ok
  refine ⟨h.1, h.2 (postRequest "abc") ?_⟩
  simp [postToX, credentialMissing]
